import Mathlib

/-!
Shallow embedding of the monthly aggregation engine of
`dashboard/data_processor.py` (class `ActualDataProcessor`): period
enumeration (`get_date_range`, `get_monthly_periods`), grouping of
transactions by account and by category, `get_net_worth_by_month`,
`get_cashflow_by_month` and `calculate_metrics`.

Modelling choices: amounts are rationals (the normalizer's decimal currency
units), dates are explicit year/month/day records, the Python dicts are
association lists looked up with `List.find?`, the `"YYYY-MM"` period
strings are `(year, month)` pairs, and `datetime.now()` is an explicit
`now` parameter threaded through the functions that may consult it.
-/

/-- A calendar date (a `datetime` value): `year`, `month` (1..12 for valid
dates), `day` (at least 1 for valid dates). -/
structure Date where
  year : Nat
  month : Nat
  day : Nat
deriving DecidableEq

/-- Lexicographic comparison of dates, as `datetime` comparison behaves. -/
def dateLe (a b : Date) : Prop :=
  a.year < b.year ∨
    (a.year = b.year ∧ (a.month < b.month ∨ (a.month = b.month ∧ a.day ≤ b.day)))

instance (a b : Date) : Decidable (dateLe a b) := by
  unfold dateLe; infer_instance

/-- Binary minimum of two dates, as used by pandas `min` over a date column. -/
def dMin (a b : Date) : Date := if dateLe a b then a else b

/-- Binary maximum of two dates, as used by pandas `max` over a date column. -/
def dMax (a b : Date) : Date := if dateLe b a then a else b

/-- Month index of a date: `12 * year + (month - 1)`.  Stepping a valid
`(year, month)` pair with the December rollover of `get_monthly_periods`
(lines 101-104) is exactly `+1` on this index. -/
def Date.mIdx (d : Date) : Nat := 12 * d.year + (d.month - 1)

/-- The `(year, month)` pair denoted by a month index. -/
def idxToKey (k : Nat) : Nat × Nat := (k / 12, k % 12 + 1)

/-- The month increment of `get_monthly_periods` (lines 101-104): December
rolls over to January of the next year, any other month steps by one. -/
def nextMonth (p : Nat × Nat) : Nat × Nat :=
  if p.2 == 12 then (p.1 + 1, 1) else (p.1, p.2 + 1)

/-- The `"YYYY-MM"` key of a date (`strftime('%Y-%m')`,
`date.dt.to_period('M').astype(str)`), modelled as the `(year, month)` pair. -/
def periodKey (d : Date) : Nat × Nat := (d.year, d.month)

/-- An account record, after normalization; only `id` and `name` are read by
the aggregation code. -/
structure Account where
  id : String
  name : String
deriving DecidableEq

/-- A category record: `id`, `name`, `group_id`, `is_income`. -/
structure Category where
  id : String
  name : String
  group_id : String
  is_income : Bool
deriving DecidableEq

/-- A transaction record after normalization: decimal amount, parsed date,
optional category / payee / transfer reference. -/
structure Transaction where
  account : String
  category : Option String
  payee : Option String
  transfer_id : Option String
  date : Date
  amount : ℚ
deriving DecidableEq

/-- `get_date_range` (lines 83-89): the minimum and maximum transaction
dates; an empty transaction set yields `(now, now)`, with `datetime.now()`
passed in as the explicit `now` parameter. -/
def get_date_range (now : Date) (txns : List Transaction) : Date × Date :=
  match txns with
  | [] => (now, now)
  | t :: rest => rest.foldl (fun p u => (dMin p.1 u.date, dMax p.2 u.date)) (t.date, t.date)

/-- The body of the `while current <= end_date` loop of
`get_monthly_periods` (lines 95-104), on month indices, with an explicit
fuel argument for structural recursion; `periodLoop` below supplies exactly
enough fuel, and `periodLoop_unfold` proves the loop equation. -/
def periodGo (fuel cur stop : Nat) : List Nat :=
  match fuel with
  | 0 => []
  | f + 1 => if cur ≤ stop then cur :: periodGo f (cur + 1) stop else []

/-- The `while current <= end_date` loop of `get_monthly_periods`
(lines 95-104), on month indices.  The Python loop starts at the first day
of the start month, so for valid dates its comparison `current <= end_date`
is exactly `cur ≤ stop` on month indices, and its month increment is `+1`
on the index. -/
def periodLoop (cur stop : Nat) : List Nat :=
  periodGo (stop + 1 - cur) cur stop

/-- `get_monthly_periods` (lines 91-106): one `(year, month)` key per
calendar month from the month of the earliest transaction date to the month
of the latest, inclusive. -/
def get_monthly_periods (now : Date) (txns : List Transaction) : List (Nat × Nat) :=
  let r := get_date_range now txns
  (periodLoop (Date.mIdx r.1) (Date.mIdx r.2)).map idxToKey

/-- Sum of the amounts of a list of transactions (`['amount'].sum()`). -/
def sumAmounts (l : List Transaction) : ℚ := (l.map (fun t => t.amount)).sum

/-- The per-entity value of `get_transactions_by_account` /
`get_transactions_by_category`: the entity's full transaction subset
(key `'all'`), the per-period sums (key `'sum'`), and the per-period
transaction subsets (one entry per period key). -/
structure TxBucket where
  all : List Transaction
  sums : List ℚ
  perPeriod : List ((Nat × Nat) × List Transaction)
deriving DecidableEq

/-- Builds one `TxBucket` from the entity's matching transactions
(lines 121-131 and 148-158). -/
def mkBucket (periods : List (Nat × Nat)) (matching : List Transaction) : TxBucket :=
  { all := matching
    sums := periods.map (fun p => sumAmounts (matching.filter (fun t => periodKey t.date == p)))
    perPeriod := periods.map (fun p => (p, matching.filter (fun t => periodKey t.date == p))) }

/-- `get_transactions_by_account` (lines 108-133): one bucket per account,
keyed by account id, holding the transactions whose `account` field equals
that id. -/
def get_transactions_by_account (now : Date) (accounts : List Account)
    (txns : List Transaction) : List (String × TxBucket) :=
  let periods := get_monthly_periods now txns
  accounts.map (fun a => (a.id, mkBucket periods (txns.filter (fun t => t.account == a.id))))

/-- `get_transactions_by_category` (lines 135-160): one bucket per category,
keyed by category id, holding the transactions whose `category` field equals
that id (a null category matches no category). -/
def get_transactions_by_category (now : Date) (categories : List Category)
    (txns : List Transaction) : List (String × TxBucket) :=
  let periods := get_monthly_periods now txns
  categories.map (fun c => (c.id, mkBucket periods (txns.filter (fun t => t.category == some c.id))))

/-- Dictionary lookup `tx_by_acct[entity_id]` (`entity_id in tx_by_acct`
is `isSome` of this). -/
def findBucket (m : List (String × TxBucket)) (k : String) : Option TxBucket :=
  (m.find? (fun e => e.1 == k)).map (fun e => e.2)

/-- Dictionary lookup `bucket[period]` (`period in bucket` is `isSome`). -/
def bucketPeriod (b : TxBucket) (p : Nat × Nat) : Option (List Transaction) :=
  (b.perPeriod.find? (fun e => e.1 == p)).map (fun e => e.2)

/-- `group_name.startswith(prefix_string)` (lines 202-204), decided on the
underlying character list so that concrete instances compute. -/
def strStartsWith (s pre : String) : Bool := pre.data.isPrefixOf s.data

/-- The cumulative-balance recurrence of `get_net_worth_by_month`
(lines 186-196): each entry is that period's flow plus the previous entry,
starting from `prev` (0 at the top level, since the first period has no
prior value). -/
def cumFrom (prev : ℚ) : List ℚ → List ℚ
  | [] => []
  | f :: rest => (prev + f) :: cumFrom (prev + f) rest

/-- One group's flow for one period (lines 183-192): over the accounts whose
name is in the group's member list, sum `tx_by_acct[account_id][period]`'s
amounts, skipping accounts whose id is not a key of `tx_by_acct`. -/
def groupMonthFlow (tba : List (String × TxBucket)) (accounts : List Account)
    (names : List String) (p : Nat × Nat) : ℚ :=
  ((accounts.filter (fun a => names.contains a.name)).map (fun a =>
    match findBucket tba a.id with
    | some b =>
      match bucketPeriod b p with
      | some txs => sumAmounts txs
      | none => 0
    | none => 0)).sum

/-- Pointwise sum of a list of series over `n` period indices, embedding the
`+=` roll-up accumulation of lines 198-205 (order of accumulation does not
affect a sum). -/
def seriesSum (ss : List (List ℚ)) (n : Nat) : List ℚ :=
  (List.range n).map (fun i => (ss.map (fun s => s.getD i 0)).sum)

/-- The result dict of `get_net_worth_by_month`: one cumulative series per
configured group plus the `'all'`, `'assets'` and `'debts'` roll-ups. -/
structure NetWorthResult where
  groups : List (String × List ℚ)
  all : List ℚ
  assets : List ℚ
  debts : List ℚ
deriving DecidableEq

/-- `get_net_worth_by_month` (lines 162-207), on the default path where
`tx_by_acct` comes from `get_transactions_by_account`.  Per configured
group: cumulative sum of the per-period flows; `'all'` adds every group's
cumulative value per period, `'assets'` the groups whose name starts with
`"assets_"`, `'debts'` the remaining groups whose name starts with
`"liabilities_"` (the `elif` of line 204). -/
def get_net_worth_by_month (account_groups : List (String × List String)) (now : Date)
    (accounts : List Account) (txns : List Transaction) : NetWorthResult :=
  let periods := get_monthly_periods now txns
  let tba := get_transactions_by_account now accounts txns
  let groups := account_groups.map
    (fun g => (g.1, cumFrom 0 (periods.map (groupMonthFlow tba accounts g.2))))
  { groups := groups
    all := seriesSum (groups.map (fun g => g.2)) periods.length
    assets := seriesSum
      ((groups.filter (fun g => strStartsWith g.1 "assets_")).map (fun g => g.2)) periods.length
    debts := seriesSum
      ((groups.filter
        (fun g => ! strStartsWith g.1 "assets_" && strStartsWith g.1 "liabilities_")).map
        (fun g => g.2)) periods.length }

/-- The configuration consumed by `get_cashflow_by_month` and
`calculate_metrics`: the two trimming flags and
`cashflow_offbudget['filter_payees']`. -/
structure CashflowConfig where
  cashflow_filter_first_mo : Bool
  cashflow_filter_current_mo : Bool
  filter_payees : List String
deriving DecidableEq

/-- The four reserved keys of the cashflow dict that the per-period group
loop skips (line 243). -/
def reservedKeys : List String := ["income", "income_pre_tax", "expenses", "diff"]

/-- The category-group ids iterated by the per-period loop of
`get_cashflow_by_month`: the distinct `group_id` values of the categories
(lines 225-227), minus the reserved keys the loop skips (line 243). -/
def cashflowGroupIds (categories : List Category) : List String :=
  ((categories.map (fun c => c.group_id)).eraseDups).filter (fun g => !reservedKeys.contains g)

/-- The transaction filter of lines 257-260: keep transactions with a null
`transfer_id` whose payee is not in `filter_payees` (a null payee is never
in the list, so it is kept). -/
def filteredMonthTxns (cfg : CashflowConfig) (txs : List Transaction) : List Transaction :=
  txs.filter (fun t => t.transfer_id.isNone &&
    !(match t.payee with
      | some p => cfg.filter_payees.contains p
      | none => false))

/-- One category group's filtered monthly total (lines 249-261): over the
group's categories, sum the filtered amounts of `tx_by_cat[cat_id][period]`,
contributing 0 when the category id or the period key is absent. -/
def groupMonthTotal (cfg : CashflowConfig) (tbc : List (String × TxBucket))
    (categories : List Category) (gid : String) (p : Nat × Nat) : ℚ :=
  ((categories.filter (fun c => c.group_id == gid)).map (fun c =>
    match findBucket tbc c.id with
    | some b =>
      match bucketPeriod b p with
      | some txs => sumAmounts (filteredMonthTxns cfg txs)
      | none => 0
    | none => 0)).sum

/-- `group_categories['is_income'].all()` (line 266): every category of the
group is flagged as income (vacuously true for an empty group). -/
def groupIsIncome (categories : List Category) (gid : String) : Bool :=
  (categories.filter (fun c => c.group_id == gid)).all (fun c => c.is_income)

/-- The running `income`/`expenses` accumulation of one period
(lines 237-269): fold over the group ids, adding each group's monthly total
to the income component when the group is all-income, else to the expenses
component. -/
def incomeExpensesAt (cfg : CashflowConfig) (tbc : List (String × TxBucket))
    (categories : List Category) (gids : List String) (p : Nat × Nat) : ℚ × ℚ :=
  gids.foldl (fun acc gid =>
    if groupIsIncome categories gid
    then (acc.1 + groupMonthTotal cfg tbc categories gid p, acc.2)
    else (acc.1, acc.2 + groupMonthTotal cfg tbc categories gid p)) (0, 0)

/-- The trimmed period list of `get_cashflow_by_month` (lines 218-221):
drop the first period when `cashflow_filter_first_mo`, then the last when
`cashflow_filter_current_mo`. -/
def trimmedPeriods (cfg : CashflowConfig) (now : Date) (txns : List Transaction) :
    List (Nat × Nat) :=
  let p0 := get_monthly_periods now txns
  let p1 := if cfg.cashflow_filter_first_mo then p0.drop 1 else p0
  if cfg.cashflow_filter_current_mo then p1.dropLast else p1

/-- One category group's raw cashflow series: its filtered monthly total per
trimmed period (line 263). -/
def cashflowGroupSeries (cfg : CashflowConfig) (now : Date) (categories : List Category)
    (txns : List Transaction) (gid : String) : List ℚ :=
  (trimmedPeriods cfg now txns).map
    (groupMonthTotal cfg (get_transactions_by_category now categories txns) categories gid)

/-- The raw `'income'` series (lines 237, 266-267). -/
def cashflowIncomeSeries (cfg : CashflowConfig) (now : Date) (categories : List Category)
    (txns : List Transaction) : List ℚ :=
  (trimmedPeriods cfg now txns).map (fun p =>
    (incomeExpensesAt cfg (get_transactions_by_category now categories txns) categories
      (cashflowGroupIds categories) p).1)

/-- The raw `'expenses'` series (lines 239, 268-269). -/
def cashflowExpensesSeries (cfg : CashflowConfig) (now : Date) (categories : List Category)
    (txns : List Transaction) : List ℚ :=
  (trimmedPeriods cfg now txns).map (fun p =>
    (incomeExpensesAt cfg (get_transactions_by_category now categories txns) categories
      (cashflowGroupIds categories) p).2)

/-- The raw `'diff'` series (lines 271-273): income plus expenses per period. -/
def cashflowDiffSeries (cfg : CashflowConfig) (now : Date) (categories : List Category)
    (txns : List Transaction) : List ℚ :=
  (trimmedPeriods cfg now txns).map (fun p =>
    (incomeExpensesAt cfg (get_transactions_by_category now categories txns) categories
      (cashflowGroupIds categories) p).1 +
    (incomeExpensesAt cfg (get_transactions_by_category now categories txns) categories
      (cashflowGroupIds categories) p).2)

/-- The raw `'income_pre_tax'` series: a zero is appended each period
(line 238) and the per-period loop skips the key (line 243), so nothing is
ever added to it. -/
def cashflowPreTaxSeries (cfg : CashflowConfig) (now : Date)
    (txns : List Transaction) : List ℚ :=
  (trimmedPeriods cfg now txns).map (fun _ => (0 : ℚ))

/-- Modelled from the spec: `moving_average` is imported from
`utils.functions`, which is not part of the source tree.  Spec section 4.5:
the trailing-window mean, defined only from index `w - 1` on, with output
length = input length − w + 1, aligned to the end of the window. -/
def moving_average (xs : List ℚ) (w : Nat) : List ℚ :=
  (List.range (xs.length + 1 - w)).map (fun i => ((xs.drop i).take w).sum / (w : ℚ))

/-- The derived moving-average entries appended for one key (lines 285-293):
a `_6moMA` entry when the series has at least 6 points, plus, for the four
main keys only, a `_12moMA` entry when it has at least 12. -/
def mainMAEntries (k : String) (s : List ℚ) : List (String × List ℚ) :=
  (if 6 ≤ s.length then [(k ++ "_6moMA", moving_average s 6)] else []) ++
  (if 12 ≤ s.length then [(k ++ "_12moMA", moving_average s 12)] else [])

/-- `get_cashflow_by_month` (lines 209-295): the association list of raw
series — one per category-group id, then `'income'`, `'income_pre_tax'`,
`'expenses'`, `'diff'` — followed by the `_6moMA` entries of the group
series (lines 276-282) and the `_6moMA`/`_12moMA` entries of the four main
keys (lines 284-293), in the dict's insertion order. -/
def get_cashflow_by_month (cfg : CashflowConfig) (now : Date) (categories : List Category)
    (txns : List Transaction) : List (String × List ℚ) :=
  let gids := cashflowGroupIds categories
  let income := cashflowIncomeSeries cfg now categories txns
  let expenses := cashflowExpensesSeries cfg now categories txns
  let diff := cashflowDiffSeries cfg now categories txns
  let preTax := cashflowPreTaxSeries cfg now txns
  (gids.map (fun gid => (gid, cashflowGroupSeries cfg now categories txns gid)) ++
    [("income", income), ("income_pre_tax", preTax), ("expenses", expenses), ("diff", diff)]) ++
  (gids.filterMap (fun gid =>
    if 6 ≤ (cashflowGroupSeries cfg now categories txns gid).length
    then some (gid ++ "_6moMA", moving_average (cashflowGroupSeries cfg now categories txns gid) 6)
    else none) ++
   (mainMAEntries "income" income ++ mainMAEntries "income_pre_tax" preTax ++
    mainMAEntries "expenses" expenses ++ mainMAEntries "diff" diff))

/-- The `metrics['savings_rate']` value of `calculate_metrics`: the three
series of line 315-319. -/
structure SavingsRate where
  monthly : List ℚ
  sixMoMA : List ℚ
  twelveMoMA : List ℚ
deriving DecidableEq

/-- `np.where(xs == 0, 0.01, xs)` (lines 313, 325): replace exact zeroes by
the constant 1/100. -/
def incomeSafe (xs : List ℚ) : List ℚ :=
  xs.map (fun x => if x = 0 then 1 / 100 else x)

/-- `1 + expenses / income_safe` (lines 316, 326), elementwise. -/
def savingsRatio (expenses income_safe : List ℚ) : List ℚ :=
  List.zipWith (fun e s => 1 + e / s) expenses income_safe

/-- The guard of line 321: is the literal string `'6moMA'` an element of the
list of keys that end with `'_6moMA'`? -/
def sixMoGuard (keys : List String) : Bool :=
  ((keys.filter (fun k => k.endsWith "_6moMA")).contains "6moMA")

/-- `calculate_metrics` (lines 297-328).  `none` models the empty metrics
dict (no `'savings_rate'` key), returned when the `'income'` or `'expenses'`
series is empty (falsy, line 308).  Otherwise the monthly ratio is computed
with the zero-income guard; the `'6moMA'` variant is filled only when the
guard of line 321 holds, from the `'income_6moMA'`/`'expenses_6moMA'`
entries (missing entries default to `[]`, line 322-323); `'12moMA'` always
stays empty.  (The periods and offsets computed at lines 299-303 are never
used and are omitted.) -/
def calculate_metrics (cashflow : List (String × List ℚ)) : Option SavingsRate :=
  let income := ((cashflow.find? (fun e => e.1 == "income")).map (fun e => e.2)).getD []
  let expenses := ((cashflow.find? (fun e => e.1 == "expenses")).map (fun e => e.2)).getD []
  if income.isEmpty || expenses.isEmpty then none
  else
    let monthly := savingsRatio expenses (incomeSafe income)
    let sixMo :=
      if sixMoGuard (cashflow.map (fun e => e.1)) then
        let income6 := ((cashflow.find? (fun e => e.1 == "income_6moMA")).map (fun e => e.2)).getD []
        let expenses6 := ((cashflow.find? (fun e => e.1 == "expenses_6moMA")).map (fun e => e.2)).getD []
        if 0 < income6.length && 0 < expenses6.length
        then savingsRatio expenses6 (incomeSafe income6)
        else []
      else []
    some { monthly := monthly, sixMoMA := sixMo, twelveMoMA := [] }

/-! Concrete inputs used by the witness and counterexample theorems below. -/

/-- A fixed `now` for the examples (irrelevant when transactions exist). -/
def exNow : Date := ⟨2024, 5, 15⟩

/-- Example accounts: one checking account. -/
def exAccounts : List Account := [⟨"a1", "Checking"⟩]

/-- Example account groups: a single asset group holding the checking account. -/
def exGroups : List (String × List String) := [("assets_cash", ["Checking"])]

/-- Example transactions: +100 in 2024-01, -20 in 2024-02. -/
def exTxns : List Transaction :=
  [⟨"a1", none, none, none, ⟨2024, 1, 15⟩, 100⟩,
   ⟨"a1", none, none, none, ⟨2024, 2, 10⟩, -20⟩]

/-- Example cashflow configuration: no trimming, no payee filter. -/
def exCfg : CashflowConfig := ⟨false, false, []⟩

/-- Example categories: two income categories in one group `"g1"`. -/
def exCatsIncome : List Category :=
  [⟨"c1", "Salary", "g1", true⟩, ⟨"c2", "Bonus", "g1", true⟩]

/-- Example transactions for the income scenario: amounts 500 and -100 in
the single period 2024-01. -/
def exTxnsIncome : List Transaction :=
  [⟨"a1", some "c1", none, none, ⟨2024, 1, 15⟩, 500⟩,
   ⟨"a1", some "c2", none, none, ⟨2024, 1, 20⟩, -100⟩]

/-- Example categories spanning twelve periods: one expense category in
group `"g1"`. -/
def exCats12 : List Category := [⟨"c3", "Food", "g1", false⟩]

/-- Example transactions giving twelve monthly periods (2020-01 .. 2020-12). -/
def exTxns12 : List Transaction :=
  [⟨"a1", some "c3", none, none, ⟨2020, 1, 5⟩, 10⟩,
   ⟨"a1", some "c3", none, none, ⟨2020, 12, 5⟩, 20⟩]

/-- Example cashflow mapping with zero income and zero expenses in the only
period. -/
def exCfZero : List (String × List ℚ) := [("income", [0]), ("expenses", [0])]

/-- Example cashflow mapping holding both 6-month moving-average series,
all nonempty. -/
def exCfSixMo : List (String × List ℚ) :=
  [("income", [1, 1, 1, 1, 1, 1]), ("expenses", [0, 0, 0, 0, 0, 0]),
   ("income_6moMA", [1]), ("expenses_6moMA", [0])]

/-- Example cashflow mapping whose income series is empty. -/
def exCfEmpty : List (String × List ℚ) := [("income", []), ("expenses", [5])]

/-! Supporting lemmas. -/

/-- With enough fuel, the fueled loop body enumerates the closed month-index
interval. -/
theorem periodGo_eq_range' :
    ∀ (fuel cur stop : Nat), stop + 1 - cur ≤ fuel →
      periodGo fuel cur stop = List.range' cur (stop + 1 - cur) := by
  intro fuel
  induction fuel with
  | zero =>
    intro cur stop h
    have h0 : stop + 1 - cur = 0 := by omega
    simp [periodGo, h0]
  | succ f ih =>
    intro cur stop h
    by_cases hc : cur ≤ stop
    · have h2 : stop + 1 - cur = (stop + 1 - (cur + 1)) + 1 := by omega
      simp only [periodGo, if_pos hc]
      rw [ih (cur + 1) stop (by omega), h2, List.range'_succ]
    · have h0 : stop + 1 - cur = 0 := by omega
      simp [periodGo, hc, h0]

/-- The while loop of `get_monthly_periods` enumerates the closed
month-index interval from `cur` to `stop`. -/
theorem periodLoop_eq_range' (cur stop : Nat) :
    periodLoop cur stop = List.range' cur (stop + 1 - cur) :=
  periodGo_eq_range' _ _ _ (Nat.le_refl _)

/-- `cumFrom` preserves length. -/
theorem cumFrom_length (prev : ℚ) (l : List ℚ) : (cumFrom prev l).length = l.length := by
  induction l generalizing prev with
  | nil => rfl
  | cons f rest ih => simp [cumFrom, ih]

/-- The defining recurrence of the cumulative series: entry `i` is flow `i`
plus the previous entry (`prev` for the first entry). -/
theorem cumFrom_getD (l : List ℚ) :
    ∀ (prev : ℚ) (i : Nat), i < l.length →
      (cumFrom prev l).getD i 0 =
        l.getD i 0 + (if i = 0 then prev else (cumFrom prev l).getD (i - 1) 0) := by
  induction l with
  | nil => intro prev i hi; simp at hi
  | cons f rest ih =>
    intro prev i hi
    cases i with
    | zero => simp [cumFrom, add_comm]
    | succ n =>
      have hn : n < rest.length := by simpa using hi
      simp only [cumFrom, List.getD_cons_succ]
      rw [ih (prev + f) n hn]
      cases n with
      | zero => simp
      | succ m => simp

/-- Length of a pointwise series sum. -/
theorem seriesSum_length (ss : List (List ℚ)) (n : Nat) : (seriesSum ss n).length = n := by
  simp [seriesSum]

/-- Entry `i` of a pointwise series sum is the sum of the entries `i`. -/
theorem seriesSum_getD (ss : List (List ℚ)) (n i : Nat) (h : i < n) :
    (seriesSum ss n).getD i 0 = (ss.map (fun s => s.getD i 0)).sum := by
  have hl : i < ((List.range n).map (fun j => (ss.map (fun s => s.getD j 0)).sum)).length := by
    simpa using h
  rw [seriesSum, List.getD_eq_getElem _ _ hl]
  simp

/-- A mapped sum of pointwise additions splits into two mapped sums. -/
theorem sum_map_add_rat {α : Type} (l : List α) (f g : α → ℚ) :
    (l.map (fun x => f x + g x)).sum = (l.map f).sum + (l.map g).sum := by
  induction l with
  | nil => simp
  | cons a t ih => simp [ih]; ring

/-- A sum of ite-selected constants over ids not containing the key is 0. -/
theorem sum_ite_of_not_mem (ids : List String) (x : String) (c : ℚ) (h : x ∉ ids) :
    (ids.map (fun i => if x = i then c else 0)).sum = 0 := by
  induction ids with
  | nil => simp
  | cons i t ih =>
    have hx : ¬(x = i) := fun he => h (he ▸ List.mem_cons_self i t)
    have ht : x ∉ t := fun hm => h (List.mem_cons_of_mem _ hm)
    simp [hx, ih ht]

/-- Over duplicate-free ids containing the key, the sum of ite-selected
constants picks the constant exactly once. -/
theorem sum_ite_single (ids : List String) (x : String) (c : ℚ)
    (hnd : ids.Nodup) (hm : x ∈ ids) :
    (ids.map (fun i => if x = i then c else 0)).sum = c := by
  induction ids with
  | nil => simp at hm
  | cons i t ih =>
    have hni : i ∉ t := (List.nodup_cons.mp hnd).1
    have hnt : t.Nodup := (List.nodup_cons.mp hnd).2
    rcases List.mem_cons.mp hm with he | ht
    · subst he
      simp [sum_ite_of_not_mem t x c hni]
    · have hx : ¬(x = i) := fun he => hni (he ▸ ht)
      simp [hx, ih hnt ht]

/-- Bucketing transactions over duplicate-free entity ids that cover every
transaction's account partitions the total amount. -/
theorem partition_sum (ids : List String) (ts : List Transaction)
    (hnd : ids.Nodup) (hcov : ∀ t ∈ ts, t.account ∈ ids) :
    (ids.map (fun i => sumAmounts (ts.filter (fun t => t.account == i)))).sum =
      sumAmounts ts := by
  induction ts with
  | nil =>
    have : (ids.map (fun i => sumAmounts ([].filter (fun t => t.account == i)))).sum =
        (ids.map (fun _ => (0 : ℚ))).sum := by
      simp [sumAmounts]
    rw [this]
    simp [sumAmounts]
  | cons t rest ih =>
    have hfun : (fun i => sumAmounts ((t :: rest).filter (fun u => u.account == i))) =
        (fun i => (if t.account = i then t.amount else 0) +
          sumAmounts (rest.filter (fun u => u.account == i))) := by
      funext i
      by_cases h : t.account = i
      · simp [List.filter_cons, h, sumAmounts]
      · simp [List.filter_cons, h, sumAmounts]
    rw [hfun, sum_map_add_rat,
      sum_ite_single ids t.account t.amount hnd (hcov t (List.mem_cons_self t rest)),
      ih (fun u hu => hcov u (List.mem_cons_of_mem t hu))]
    simp [sumAmounts]

/-- The running income/expenses fold of one cashflow period, from an
arbitrary starting pair: it adds the sum of the all-income groups' totals to
the first component and the sum of the other groups' totals to the second. -/
theorem incomeExpenses_foldl (cfg : CashflowConfig) (tbc : List (String × TxBucket))
    (cats : List Category) (p : Nat × Nat) :
    ∀ (gids : List String) (a b : ℚ),
      gids.foldl (fun acc gid =>
        if groupIsIncome cats gid
        then (acc.1 + groupMonthTotal cfg tbc cats gid p, acc.2)
        else (acc.1, acc.2 + groupMonthTotal cfg tbc cats gid p)) (a, b) =
      (a + (gids.map (fun gid =>
          if groupIsIncome cats gid then groupMonthTotal cfg tbc cats gid p else 0)).sum,
       b + (gids.map (fun gid =>
          if groupIsIncome cats gid then 0 else groupMonthTotal cfg tbc cats gid p)).sum) := by
  intro gids
  induction gids with
  | nil => intro a b; simp
  | cons g t ih =>
    intro a b
    by_cases h : groupIsIncome cats g
    · simp only [List.foldl_cons, if_pos h, ih, List.map_cons, List.sum_cons]
      simp [add_assoc]
    · simp only [List.foldl_cons, if_neg h, ih, List.map_cons, List.sum_cons]
      simp [add_assoc]

/-- `incomeExpensesAt` computed in closed form. -/
theorem incomeExpensesAt_eq (cfg : CashflowConfig) (tbc : List (String × TxBucket))
    (cats : List Category) (gids : List String) (p : Nat × Nat) :
    incomeExpensesAt cfg tbc cats gids p =
      ((gids.map (fun gid =>
          if groupIsIncome cats gid then groupMonthTotal cfg tbc cats gid p else 0)).sum,
       (gids.map (fun gid =>
          if groupIsIncome cats gid then 0 else groupMonthTotal cfg tbc cats gid p)).sum) := by
  unfold incomeExpensesAt
  rw [incomeExpenses_foldl]
  simp

/-- Splitting a mapped sum by the `assets_`/`liabilities_` prefix test, when
every element's name passes one of the two: the `assets_` part plus the
not-`assets_`-but-`liabilities_` part recovers the whole sum. -/
theorem filter_split_sum (v : String × List ℚ → ℚ) :
    ∀ (gs : List (String × List ℚ)),
      (∀ g ∈ gs, strStartsWith g.1 "assets_" = true ∨ strStartsWith g.1 "liabilities_" = true) →
      ((gs.filter (fun g => strStartsWith g.1 "assets_")).map v).sum +
        ((gs.filter
          (fun g => ! strStartsWith g.1 "assets_" && strStartsWith g.1 "liabilities_")).map
          v).sum =
        (gs.map v).sum := by
  intro gs
  induction gs with
  | nil => intro _; simp
  | cons g t ih =>
    intro h
    have hg := h g (List.mem_cons_self g t)
    have ht := ih (fun x hx => h x (List.mem_cons_of_mem _ hx))
    by_cases ha : strStartsWith g.1 "assets_" = true
    · simp only [List.filter_cons, ha, Bool.not_true, Bool.false_and, List.map_cons,
        List.sum_cons, if_true]
      rw [← ht]
      simp
      ring
    · have hb : strStartsWith g.1 "assets_" = false := by
        cases hsw : strStartsWith g.1 "assets_" with
        | false => rfl
        | true => exact absurd hsw ha
      have hl : strStartsWith g.1 "liabilities_" = true := by
        rcases hg with h1 | h1
        · exact absurd h1 ha
        · exact h1
      simp only [List.filter_cons, hb, hl, Bool.not_false, Bool.true_and, List.map_cons,
        List.sum_cons]
      rw [← ht]
      simp
      ring

/-- Entry `i` of `savingsRatio`, in range. -/
theorem savingsRatio_getD (e s : List ℚ) (i : Nat) (h1 : i < e.length) (h2 : i < s.length) :
    (savingsRatio e s).getD i 0 = 1 + e.getD i 0 / s.getD i 0 := by
  have hl : i < (savingsRatio e s).length := by
    simp [savingsRatio]
    omega
  rw [List.getD_eq_getElem _ _ hl, List.getD_eq_getElem _ _ h1, List.getD_eq_getElem _ _ h2]
  simp [savingsRatio, List.getElem_zipWith]

/-- Entry `i` of the zero-income guard, in range. -/
theorem incomeSafe_getD (xs : List ℚ) (i : Nat) (h : i < xs.length) :
    (incomeSafe xs).getD i 0 = if xs.getD i 0 = 0 then 1 / 100 else xs.getD i 0 := by
  have hl : i < (incomeSafe xs).length := by simp [incomeSafe]; omega
  rw [List.getD_eq_getElem _ _ hl, List.getD_eq_getElem _ _ h]
  simp [incomeSafe]

/-- The guard of line 321 is identically false: every key of the filtered
list ends with `"_6moMA"`, and the literal `"6moMA"` does not. -/
theorem sixMoGuard_false (keys : List String) : sixMoGuard keys = false := by
  unfold sixMoGuard
  cases hc : (keys.filter (fun k => k.endsWith "_6moMA")).contains "6moMA" with
  | false => rfl
  | true =>
    exfalso
    have hm : "6moMA" ∈ keys.filter (fun k => k.endsWith "_6moMA") := by
      simpa using hc
    have h2 : "6moMA".endsWith "_6moMA" = true := (List.mem_filter.mp hm).2
    have h3 : "6moMA".endsWith "_6moMA" = false := by decide
    rw [h2] at h3
    exact Bool.noConfusion h3

/-! Claim theorems. -/

/-- Claim C5: for every period index, the monthly savings rate computed by
`calculate_metrics` equals `1 + expenses/income` when the period's income is
nonzero, and `1 + expenses/0.01` when it is exactly zero; in particular it
is always defined. -/
theorem savings_rate_monthly_formula
    (cf : List (String × List ℚ)) (inc exp : List ℚ)
    (hinc : cf.find? (fun e => e.1 == "income") = some ("income", inc))
    (hexp : cf.find? (fun e => e.1 == "expenses") = some ("expenses", exp))
    (hlen : inc.length = exp.length) (i : Nat) (hi : i < exp.length) :
    (calculate_metrics cf).map (fun r => r.monthly.getD i 0) =
      some (if inc.getD i 0 = 0
            then 1 + exp.getD i 0 / (1 / 100)
            else 1 + exp.getD i 0 / inc.getD i 0) := by
  unfold calculate_metrics
  rw [hinc, hexp]
  have hincne : inc.isEmpty = false := by
    cases inc with
    | nil => simp at hlen; omega
    | cons a t => rfl
  have hexpne : exp.isEmpty = false := by
    cases exp with
    | nil => simp at hi
    | cons a t => rfl
  simp only [Option.map_some', Option.getD_some, hincne, hexpne, Bool.or_self, Bool.false_eq_true,
    if_false]
  have hr := savingsRatio_getD exp (incomeSafe inc) i hi (by simp [incomeSafe]; omega)
  have hs := incomeSafe_getD inc i (by omega)
  rw [hr, hs]
  by_cases h0 : inc.getD i 0 = 0
  · rw [if_pos h0, if_pos h0]
  · rw [if_neg h0, if_neg h0]

/-- Witness for claim C5: with income 0 and expenses 0 in the only period,
the monthly savings rate is defined and equals 1. -/
theorem savings_rate_monthly_formula_witness :
    (calculate_metrics exCfZero).map (fun r => r.monthly.getD 0 0) = some 1 := by
  have h := savings_rate_monthly_formula exCfZero [0] [0] (by decide) (by decide) (by decide)
    0 (by decide)
  rw [h]
  norm_num

/-- Claim C6 (code bug): a cashflow mapping that contains the nonempty
`'income_6moMA'` and `'expenses_6moMA'` series still yields an empty
6-month-average savings-rate variant, because the guard of line 321 —
`'6moMA' in [k for k in keys if k.endswith('_6moMA')]` — can never hold. -/
theorem savings_rate_sixmo_never_produced :
    ((exCfSixMo.find? (fun e => e.1 == "income_6moMA")).isSome = true) ∧
    ((exCfSixMo.find? (fun e => e.1 == "expenses_6moMA")).isSome = true) ∧
    (calculate_metrics exCfSixMo).map (fun r => r.sixMoMA) = some [] := by
  refine ⟨by decide, by decide, ?_⟩
  unfold calculate_metrics
  rw [sixMoGuard_false]
  simp
  exact ⟨_, ⟨⟨by decide, by decide⟩, rfl⟩, rfl⟩

/-- Claim C10: when the `'income'` series or the `'expenses'` series of the
cashflow mapping is empty, `calculate_metrics` returns the empty metrics
mapping (no `'savings_rate'` key, modelled as `none`). -/
theorem metrics_empty_series_none
    (cf : List (String × List ℚ))
    (h : cf.find? (fun e => e.1 == "income") = some ("income", ([] : List ℚ)) ∨
         cf.find? (fun e => e.1 == "expenses") = some ("expenses", ([] : List ℚ))) :
    calculate_metrics cf = none := by
  unfold calculate_metrics
  rcases h with h | h
  · rw [h]; simp
  · rw [h]; simp

/-- Witness for claim C10: a mapping whose income series is empty yields the
empty metrics mapping. -/
theorem metrics_empty_series_none_witness : calculate_metrics exCfEmpty = none :=
  metrics_empty_series_none exCfEmpty (Or.inl (by decide))

/-- Claim C8: per period, each category group's filtered monthly total is
added to the `'income'` series when every category of the group is flagged
`is_income`, and to the `'expenses'` series otherwise. -/
theorem cashflow_income_expense_classification
    (cfg : CashflowConfig) (now : Date) (cats : List Category) (txns : List Transaction)
    (i : Nat) (hi : i < (trimmedPeriods cfg now txns).length) :
    (cashflowIncomeSeries cfg now cats txns).getD i 0 =
      ((cashflowGroupIds cats).map (fun gid =>
        if groupIsIncome cats gid
        then groupMonthTotal cfg (get_transactions_by_category now cats txns) cats gid
               ((trimmedPeriods cfg now txns).getD i (0, 0))
        else 0)).sum ∧
    (cashflowExpensesSeries cfg now cats txns).getD i 0 =
      ((cashflowGroupIds cats).map (fun gid =>
        if groupIsIncome cats gid
        then 0
        else groupMonthTotal cfg (get_transactions_by_category now cats txns) cats gid
               ((trimmedPeriods cfg now txns).getD i (0, 0)))).sum := by
  constructor
  · unfold cashflowIncomeSeries
    have hl : i < ((trimmedPeriods cfg now txns).map (fun p =>
        (incomeExpensesAt cfg (get_transactions_by_category now cats txns) cats
          (cashflowGroupIds cats) p).1)).length := by simpa using hi
    rw [List.getD_eq_getElem _ _ hl, List.getElem_map, List.getD_eq_getElem _ _ hi,
      incomeExpensesAt_eq]
  · unfold cashflowExpensesSeries
    have hl : i < ((trimmedPeriods cfg now txns).map (fun p =>
        (incomeExpensesAt cfg (get_transactions_by_category now cats txns) cats
          (cashflowGroupIds cats) p).2)).length := by simpa using hi
    rw [List.getD_eq_getElem _ _ hl, List.getElem_map, List.getD_eq_getElem _ _ hi,
      incomeExpensesAt_eq]

/-- Witness for claim C8: two income categories in one group with amounts
500 and -100 in the single period; the classification identity holds at
period 0 and the income series is `[400]`. -/
theorem cashflow_income_expense_classification_witness :
    (0 < (trimmedPeriods exCfg exNow exTxnsIncome).length ∧
      (cashflowIncomeSeries exCfg exNow exCatsIncome exTxnsIncome).getD 0 0 =
        ((cashflowGroupIds exCatsIncome).map (fun gid =>
          if groupIsIncome exCatsIncome gid
          then groupMonthTotal exCfg
                 (get_transactions_by_category exNow exCatsIncome exTxnsIncome)
                 exCatsIncome gid ((trimmedPeriods exCfg exNow exTxnsIncome).getD 0 (0, 0))
          else 0)).sum) ∧
    cashflowIncomeSeries exCfg exNow exCatsIncome exTxnsIncome = [400] := by
  refine ⟨⟨by decide, (cashflow_income_expense_classification exCfg exNow exCatsIncome
    exTxnsIncome 0 (by decide)).1⟩, ?_⟩
  have h1 : trimmedPeriods exCfg exNow exTxnsIncome = [(2024, 1)] := by decide
  have h2 : cashflowGroupIds exCatsIncome = ["g1"] := by decide
  unfold cashflowIncomeSeries
  rw [h1, h2]
  simp only [List.map_cons, List.map_nil, incomeExpensesAt, List.foldl_cons, List.foldl_nil]
  simp [groupIsIncome, groupMonthTotal, get_transactions_by_category, mkBucket, findBucket,
    bucketPeriod, filteredMonthTxns, sumAmounts, get_monthly_periods, get_date_range, periodLoop,
    periodGo, exCfg, exNow, exCatsIncome, exTxnsIncome, dMin, dMax, dateLe, Date.mIdx, idxToKey,
    periodKey, List.filter_cons, List.find?_cons]
  norm_num

/-- Claim C9: for every input, the cashflow mapping contains the key
`'income_pre_tax'`, bound to a series with exactly one entry per trimmed
period, every entry 0 — nothing is ever accumulated into it. -/
theorem cashflow_income_pre_tax_always_zero
    (cfg : CashflowConfig) (now : Date) (cats : List Category) (txns : List Transaction) :
    ∃ v, (get_cashflow_by_month cfg now cats txns).find? (fun e => e.1 == "income_pre_tax") =
        some ("income_pre_tax", v) ∧
      v.length = (trimmedPeriods cfg now txns).length ∧ ∀ x ∈ v, x = 0 := by
  refine ⟨cashflowPreTaxSeries cfg now txns, ?_, by simp [cashflowPreTaxSeries], ?_⟩
  · unfold get_cashflow_by_month
    rw [List.find?_append, List.find?_append]
    have hA : ((cashflowGroupIds cats).map
        (fun gid => (gid, cashflowGroupSeries cfg now cats txns gid))).find?
          (fun e => e.1 == "income_pre_tax") = none := by
      refine List.find?_eq_none.mpr ?_
      intro x hx
      rcases List.mem_map.mp hx with ⟨gid, hgid, rfl⟩
      have h2 := (List.mem_filter.mp hgid).2
      intro hbeq
      have hg : gid = "income_pre_tax" := eq_of_beq hbeq
      subst hg
      simp [reservedKeys] at h2
    rw [hA]
    rfl
  · intro x hx
    rcases List.mem_map.mp hx with ⟨p, hp, rfl⟩
    rfl

/-- A key's 6-period moving-average entry is present once its series has at
least 6 points. -/
theorem mainMA_mem6 (k : String) (s : List ℚ) (h : 6 ≤ s.length) :
    (k ++ "_6moMA", moving_average s 6) ∈ mainMAEntries k s := by
  unfold mainMAEntries
  refine List.mem_append.mpr (Or.inl ?_)
  rw [if_pos h]
  exact List.mem_singleton.mpr rfl

/-- A key's 12-period moving-average entry is present once its series has at
least 12 points. -/
theorem mainMA_mem12 (k : String) (s : List ℚ) (h : 12 ≤ s.length) :
    (k ++ "_12moMA", moving_average s 12) ∈ mainMAEntries k s := by
  unfold mainMAEntries
  refine List.mem_append.mpr (Or.inr ?_)
  rw [if_pos h]
  exact List.mem_singleton.mpr rfl

/-- Claim C7 (amended): every category-group series with at least 6 points
gets a `_6moMA` entry, and each of `'income'`, `'expenses'`, `'diff'` gets a
`_6moMA` entry at 6 points and additionally a `_12moMA` entry at 12 points.
(Category-group series never get a `_12moMA` entry — see the
counterexample `cashflow_group_12moMA_missing`.) -/
theorem cashflow_moving_average_entries
    (cfg : CashflowConfig) (now : Date) (cats : List Category) (txns : List Transaction) :
    (∀ gid ∈ cashflowGroupIds cats,
      6 ≤ (cashflowGroupSeries cfg now cats txns gid).length →
      (gid ++ "_6moMA", moving_average (cashflowGroupSeries cfg now cats txns gid) 6)
        ∈ get_cashflow_by_month cfg now cats txns) ∧
    (6 ≤ (cashflowIncomeSeries cfg now cats txns).length →
      ("income_6moMA", moving_average (cashflowIncomeSeries cfg now cats txns) 6)
        ∈ get_cashflow_by_month cfg now cats txns) ∧
    (12 ≤ (cashflowIncomeSeries cfg now cats txns).length →
      ("income_12moMA", moving_average (cashflowIncomeSeries cfg now cats txns) 12)
        ∈ get_cashflow_by_month cfg now cats txns) ∧
    (6 ≤ (cashflowExpensesSeries cfg now cats txns).length →
      ("expenses_6moMA", moving_average (cashflowExpensesSeries cfg now cats txns) 6)
        ∈ get_cashflow_by_month cfg now cats txns) ∧
    (12 ≤ (cashflowExpensesSeries cfg now cats txns).length →
      ("expenses_12moMA", moving_average (cashflowExpensesSeries cfg now cats txns) 12)
        ∈ get_cashflow_by_month cfg now cats txns) ∧
    (6 ≤ (cashflowDiffSeries cfg now cats txns).length →
      ("diff_6moMA", moving_average (cashflowDiffSeries cfg now cats txns) 6)
        ∈ get_cashflow_by_month cfg now cats txns) ∧
    (12 ≤ (cashflowDiffSeries cfg now cats txns).length →
      ("diff_12moMA", moving_average (cashflowDiffSeries cfg now cats txns) 12)
        ∈ get_cashflow_by_month cfg now cats txns) := by
  unfold get_cashflow_by_month
  refine ⟨?_, ?_, ?_, ?_, ?_, ?_, ?_⟩
  · intro gid hgid hlen
    refine List.mem_append_right _ (List.mem_append_left _ ?_)
    refine List.mem_filterMap.mpr ⟨gid, hgid, ?_⟩
    rw [if_pos hlen]
  · intro hlen
    exact List.mem_append_right _ (List.mem_append_right _ (List.mem_append_left _
      (List.mem_append_left _ (List.mem_append_left _ (mainMA_mem6 "income" _ hlen)))))
  · intro hlen
    exact List.mem_append_right _ (List.mem_append_right _ (List.mem_append_left _
      (List.mem_append_left _ (List.mem_append_left _ (mainMA_mem12 "income" _ hlen)))))
  · intro hlen
    exact List.mem_append_right _ (List.mem_append_right _ (List.mem_append_left _
      (List.mem_append_right _ (mainMA_mem6 "expenses" _ hlen))))
  · intro hlen
    exact List.mem_append_right _ (List.mem_append_right _ (List.mem_append_left _
      (List.mem_append_right _ (mainMA_mem12 "expenses" _ hlen))))
  · intro hlen
    exact List.mem_append_right _ (List.mem_append_right _
      (List.mem_append_right _ (mainMA_mem6 "diff" _ hlen)))
  · intro hlen
    exact List.mem_append_right _ (List.mem_append_right _
      (List.mem_append_right _ (mainMA_mem12 "diff" _ hlen)))

/-- Witness for claim C7 (amended): with twelve periods of data, the
category group `"g1"` has its `_6moMA` entry and `'income'` has its
`_12moMA` entry. -/
theorem cashflow_moving_average_entries_witness :
    (6 ≤ (cashflowGroupSeries exCfg exNow exCats12 exTxns12 "g1").length ∧
      ("g1" ++ "_6moMA", moving_average (cashflowGroupSeries exCfg exNow exCats12 exTxns12 "g1") 6)
        ∈ get_cashflow_by_month exCfg exNow exCats12 exTxns12) ∧
    (12 ≤ (cashflowIncomeSeries exCfg exNow exCats12 exTxns12).length ∧
      ("income_12moMA", moving_average (cashflowIncomeSeries exCfg exNow exCats12 exTxns12) 12)
        ∈ get_cashflow_by_month exCfg exNow exCats12 exTxns12) :=
  ⟨⟨by decide, (cashflow_moving_average_entries exCfg exNow exCats12 exTxns12).1 "g1"
      (by decide) (by decide)⟩,
   ⟨by decide, (cashflow_moving_average_entries exCfg exNow exCats12 exTxns12).2.2.1
      (by decide)⟩⟩

/-- Counterexample for claim C7 as stated: with twelve periods of data, the
category group `"g1"`'s series has 12 points, yet no `'g1_12moMA'` entry
exists in the cashflow mapping — the loop at lines 276-282 only appends
`_6moMA` entries for category groups. -/
theorem cashflow_group_12moMA_missing :
    12 ≤ (cashflowGroupSeries exCfg exNow exCats12 exTxns12 "g1").length ∧
    (get_cashflow_by_month exCfg exNow exCats12 exTxns12).find?
      (fun e => e.1 == "g1_12moMA") = none :=
  ⟨by decide, by decide⟩

/-- Claim C1: each configured group's net-worth series obeys the cumulative
recurrence — entry `i` is the group's flow for period `i` (the sum of that
period's transaction amounts over the group's member accounts) plus entry
`i - 1`, and entry 0 is the flow alone. -/
theorem net_worth_group_series_cumulative
    (ag : List (String × List String)) (now : Date) (accounts : List Account)
    (txns : List Transaction) (j : Nat) (hj : j < ag.length) (i : Nat)
    (hi : i < (get_monthly_periods now txns).length) :
    (((get_net_worth_by_month ag now accounts txns).groups.getD j ("", [])).2).getD i 0 =
      groupMonthFlow (get_transactions_by_account now accounts txns) accounts
        ((ag.getD j ("", [])).2) ((get_monthly_periods now txns).getD i (0, 0)) +
      (if i = 0 then 0
       else (((get_net_worth_by_month ag now accounts txns).groups.getD j ("", [])).2).getD
         (i - 1) 0) := by
  have hgroups : (get_net_worth_by_month ag now accounts txns).groups =
      ag.map (fun g => (g.1, cumFrom 0 ((get_monthly_periods now txns).map
        (groupMonthFlow (get_transactions_by_account now accounts txns) accounts g.2)))) := rfl
  rw [hgroups]
  have hj' : j < (ag.map (fun g => (g.1, cumFrom 0 ((get_monthly_periods now txns).map
      (groupMonthFlow (get_transactions_by_account now accounts txns) accounts g.2))))).length := by
    simpa using hj
  rw [List.getD_eq_getElem _ _ hj', List.getElem_map, List.getD_eq_getElem _ _ hj]
  dsimp only
  have hflen : i < ((get_monthly_periods now txns).map
      (groupMonthFlow (get_transactions_by_account now accounts txns) accounts
        ag[j].2)).length := by simpa using hi
  rw [cumFrom_getD _ _ _ hflen]
  have hfl : ((get_monthly_periods now txns).map
      (groupMonthFlow (get_transactions_by_account now accounts txns) accounts
        ag[j].2)).getD i 0 =
      groupMonthFlow (get_transactions_by_account now accounts txns) accounts
        ag[j].2 ((get_monthly_periods now txns).getD i (0, 0)) := by
    rw [List.getD_eq_getElem _ _ hflen, List.getElem_map, List.getD_eq_getElem _ _ hi]
  rw [hfl]

/-- Witness for claim C1: the checking-account scenario (+100 in 2024-01,
-20 in 2024-02) instantiates the recurrence at period 1, and the group
series evaluates to `[100, 80]`. -/
theorem net_worth_group_series_cumulative_witness :
    (1 < (get_monthly_periods exNow exTxns).length ∧
      (((get_net_worth_by_month exGroups exNow exAccounts exTxns).groups.getD 0 ("", [])).2).getD
          1 0 =
        groupMonthFlow (get_transactions_by_account exNow exAccounts exTxns) exAccounts
          ((exGroups.getD 0 ("", [])).2) ((get_monthly_periods exNow exTxns).getD 1 (0, 0)) +
        (if 1 = 0 then 0
         else (((get_net_worth_by_month exGroups exNow exAccounts exTxns).groups.getD
           0 ("", [])).2).getD 0 0)) ∧
    (get_net_worth_by_month exGroups exNow exAccounts exTxns).groups =
      [("assets_cash", [100, 80])] := by
  refine ⟨⟨by decide, net_worth_group_series_cumulative exGroups exNow exAccounts exTxns 0
    (by decide) 1 (by decide)⟩, ?_⟩
  have hp : get_monthly_periods exNow exTxns = [(2024, 1), (2024, 2)] := by decide
  unfold get_net_worth_by_month
  rw [hp]
  dsimp only
  have f1 : groupMonthFlow (get_transactions_by_account exNow exAccounts exTxns) exAccounts
      ["Checking"] (2024, 1) = 100 := by
    simp [groupMonthFlow, get_transactions_by_account, mkBucket, findBucket, bucketPeriod,
      sumAmounts, get_monthly_periods, get_date_range, periodLoop, periodGo, exNow, exAccounts,
      exTxns, dMin, dMax, dateLe, Date.mIdx, idxToKey, periodKey, List.filter_cons,
      List.find?_cons]
  have f2 : groupMonthFlow (get_transactions_by_account exNow exAccounts exTxns) exAccounts
      ["Checking"] (2024, 2) = -20 := by
    simp [groupMonthFlow, get_transactions_by_account, mkBucket, findBucket, bucketPeriod,
      sumAmounts, get_monthly_periods, get_date_range, periodLoop, periodGo, exNow, exAccounts,
      exTxns, dMin, dMax, dateLe, Date.mIdx, idxToKey, periodKey, List.filter_cons,
      List.find?_cons]
  simp only [List.map_cons, List.map_nil, exGroups, f1, f2]
  norm_num [cumFrom]

/-- Claim C2: when every configured account-group name starts with
`"assets_"` or `"liabilities_"`, the `'assets'` and `'debts'` roll-ups sum
to the `'all'` roll-up at every period index. -/
theorem net_worth_assets_plus_debts_eq_all
    (ag : List (String × List String)) (now : Date) (accounts : List Account)
    (txns : List Transaction)
    (h : ∀ g ∈ ag,
      strStartsWith g.1 "assets_" = true ∨ strStartsWith g.1 "liabilities_" = true)
    (i : Nat) :
    (get_net_worth_by_month ag now accounts txns).assets.getD i 0 +
      (get_net_worth_by_month ag now accounts txns).debts.getD i 0 =
    (get_net_worth_by_month ag now accounts txns).all.getD i 0 := by
  have hassets : (get_net_worth_by_month ag now accounts txns).assets =
      seriesSum (((ag.map (fun g => (g.1, cumFrom 0 ((get_monthly_periods now txns).map
        (groupMonthFlow (get_transactions_by_account now accounts txns) accounts
          g.2))))).filter (fun g => strStartsWith g.1 "assets_")).map (fun g => g.2))
        (get_monthly_periods now txns).length := rfl
  have hdebts : (get_net_worth_by_month ag now accounts txns).debts =
      seriesSum (((ag.map (fun g => (g.1, cumFrom 0 ((get_monthly_periods now txns).map
        (groupMonthFlow (get_transactions_by_account now accounts txns) accounts
          g.2))))).filter (fun g => ! strStartsWith g.1 "assets_" &&
            strStartsWith g.1 "liabilities_")).map (fun g => g.2))
        (get_monthly_periods now txns).length := rfl
  have hall : (get_net_worth_by_month ag now accounts txns).all =
      seriesSum ((ag.map (fun g => (g.1, cumFrom 0 ((get_monthly_periods now txns).map
        (groupMonthFlow (get_transactions_by_account now accounts txns) accounts
          g.2))))).map (fun g => g.2))
        (get_monthly_periods now txns).length := rfl
  rw [hassets, hdebts, hall]
  by_cases hi : i < (get_monthly_periods now txns).length
  · rw [seriesSum_getD _ _ _ hi, seriesSum_getD _ _ _ hi, seriesSum_getD _ _ _ hi,
      List.map_map, List.map_map, List.map_map]
    refine filter_split_sum (fun g => g.2.getD i 0) _ ?_
    intro g hg
    rcases List.mem_map.mp hg with ⟨c, hc, rfl⟩
    exact h c hc
  · have hn : (get_monthly_periods now txns).length ≤ i := by omega
    rw [List.getD_eq_default, List.getD_eq_default, List.getD_eq_default]
    · simp
    · rw [seriesSum_length]; omega
    · rw [seriesSum_length]; omega
    · rw [seriesSum_length]; omega

/-- Witness for claim C2: in the checking-account scenario (all groups named
`assets_*`), assets plus debts equals all at period 0. -/
theorem net_worth_assets_plus_debts_eq_all_witness :
    (get_net_worth_by_month exGroups exNow exAccounts exTxns).assets.getD 0 0 +
      (get_net_worth_by_month exGroups exNow exAccounts exTxns).debts.getD 0 0 =
    (get_net_worth_by_month exGroups exNow exAccounts exTxns).all.getD 0 0 :=
  net_worth_assets_plus_debts_eq_all exGroups exNow exAccounts exTxns (by decide) 0

/-- Claim C3: when account ids are distinct and every transaction references
a known account id, the per-account `'all'` buckets partition the
transactions — their amount totals sum to the total of all transactions. -/
theorem transactions_by_account_total
    (now : Date) (accounts : List Account) (txns : List Transaction)
    (hnd : (accounts.map (fun a => a.id)).Nodup)
    (hcov : ∀ t ∈ txns, t.account ∈ accounts.map (fun a => a.id)) :
    ((get_transactions_by_account now accounts txns).map (fun e => sumAmounts e.2.all)).sum =
      sumAmounts txns := by
  unfold get_transactions_by_account
  rw [List.map_map]
  have h := partition_sum (accounts.map (fun a => a.id)) txns hnd hcov
  rw [List.map_map] at h
  exact h

/-- Witness for claim C3: the checking-account scenario conserves the total
amount, which evaluates to 80. -/
theorem transactions_by_account_total_witness :
    (((exAccounts.map (fun a => a.id)).Nodup ∧
      ((get_transactions_by_account exNow exAccounts exTxns).map
        (fun e => sumAmounts e.2.all)).sum = sumAmounts exTxns)) ∧
    sumAmounts exTxns = 80 := by
  refine ⟨⟨by decide, transactions_by_account_total exNow exAccounts exTxns (by decide)
    (by decide)⟩, ?_⟩
  norm_num [sumAmounts, exTxns]

theorem dateLe_refl (a : Date) : dateLe a a := by unfold dateLe; omega

/-- Date comparison is transitive. -/
theorem dateLe_trans {a b c : Date} (h1 : dateLe a b) (h2 : dateLe b c) : dateLe a c := by
  unfold dateLe at h1 h2 ⊢; omega

/-- Date comparison is total. -/
theorem dateLe_total (a b : Date) : dateLe a b ∨ dateLe b a := by
  unfold dateLe; omega

/-- The date minimum is below its first argument. -/
theorem dMin_le_left (a b : Date) : dateLe (dMin a b) a := by
  unfold dMin
  split
  · exact dateLe_refl a
  · rcases dateLe_total a b with h | h
    · contradiction
    · exact h

/-- The date minimum is below its second argument. -/
theorem dMin_le_right (a b : Date) : dateLe (dMin a b) b := by
  unfold dMin
  split
  · assumption
  · exact dateLe_refl b

/-- The date minimum is one of its arguments. -/
theorem dMin_eq_or (a b : Date) : dMin a b = a ∨ dMin a b = b := by
  unfold dMin
  split
  · exact Or.inl rfl
  · exact Or.inr rfl

/-- The date maximum is above its first argument. -/
theorem le_dMax_left (a b : Date) : dateLe a (dMax a b) := by
  unfold dMax
  split
  · exact dateLe_refl a
  · rcases dateLe_total a b with h | h
    · exact h
    · contradiction

/-- The date maximum is above its second argument. -/
theorem le_dMax_right (a b : Date) : dateLe b (dMax a b) := by
  unfold dMax
  split
  · assumption
  · exact dateLe_refl b

/-- The date maximum is one of its arguments. -/
theorem dMax_eq_or (a b : Date) : dMax a b = a ∨ dMax a b = b := by
  unfold dMax
  split
  · exact Or.inl rfl
  · exact Or.inr rfl

/-- The paired min/max fold of `get_date_range` splits into a min fold and a
max fold. -/
theorem foldl_minmax_split :
    ∀ (l : List Transaction) (a b : Date),
      l.foldl (fun p u => (dMin p.1 u.date, dMax p.2 u.date)) (a, b) =
        (l.foldl (fun x u => dMin x u.date) a, l.foldl (fun x u => dMax x u.date) b) := by
  intro l
  induction l with
  | nil => intro a b; rfl
  | cons u t ih => intro a b; exact ih (dMin a u.date) (dMax b u.date)

/-- The min fold returns its seed or the date of some list element. -/
theorem minFold_eq_or_mem :
    ∀ (l : List Transaction) (a : Date),
      l.foldl (fun x u => dMin x u.date) a = a ∨
        ∃ t ∈ l, l.foldl (fun x u => dMin x u.date) a = t.date := by
  intro l
  induction l with
  | nil => intro a; exact Or.inl rfl
  | cons u t ih =>
    intro a
    rcases ih (dMin a u.date) with h | ⟨w, hw, hweq⟩
    · rcases dMin_eq_or a u.date with h2 | h2
      · exact Or.inl (by rw [List.foldl_cons, h, h2])
      · exact Or.inr ⟨u, List.mem_cons_self u t, by rw [List.foldl_cons, h, h2]⟩
    · exact Or.inr ⟨w, List.mem_cons_of_mem u hw, by rw [List.foldl_cons]; exact hweq⟩

/-- The min fold is below its seed. -/
theorem minFold_le_init :
    ∀ (l : List Transaction) (a : Date), dateLe (l.foldl (fun x u => dMin x u.date) a) a := by
  intro l
  induction l with
  | nil => intro a; exact dateLe_refl a
  | cons u t ih =>
    intro a
    exact dateLe_trans (ih (dMin a u.date)) (dMin_le_left a u.date)

/-- The min fold is below every list element's date. -/
theorem minFold_le_mem :
    ∀ (l : List Transaction) (a : Date) (t : Transaction), t ∈ l →
      dateLe (l.foldl (fun x u => dMin x u.date) a) t.date := by
  intro l
  induction l with
  | nil => intro a t ht; simp at ht
  | cons u w ih =>
    intro a t ht
    rcases List.mem_cons.mp ht with rfl | ht
    · exact dateLe_trans (minFold_le_init w (dMin a t.date)) (dMin_le_right a t.date)
    · exact ih (dMin a u.date) t ht

/-- The max fold returns its seed or the date of some list element. -/
theorem maxFold_eq_or_mem :
    ∀ (l : List Transaction) (a : Date),
      l.foldl (fun x u => dMax x u.date) a = a ∨
        ∃ t ∈ l, l.foldl (fun x u => dMax x u.date) a = t.date := by
  intro l
  induction l with
  | nil => intro a; exact Or.inl rfl
  | cons u t ih =>
    intro a
    rcases ih (dMax a u.date) with h | ⟨w, hw, hweq⟩
    · rcases dMax_eq_or a u.date with h2 | h2
      · exact Or.inl (by rw [List.foldl_cons, h, h2])
      · exact Or.inr ⟨u, List.mem_cons_self u t, by rw [List.foldl_cons, h, h2]⟩
    · exact Or.inr ⟨w, List.mem_cons_of_mem u hw, by rw [List.foldl_cons]; exact hweq⟩

/-- The max fold is above its seed. -/
theorem maxFold_ge_init :
    ∀ (l : List Transaction) (a : Date), dateLe a (l.foldl (fun x u => dMax x u.date) a) := by
  intro l
  induction l with
  | nil => intro a; exact dateLe_refl a
  | cons u t ih =>
    intro a
    exact dateLe_trans (le_dMax_left a u.date) (ih (dMax a u.date))

/-- The max fold is above every list element's date. -/
theorem maxFold_ge_mem :
    ∀ (l : List Transaction) (a : Date) (t : Transaction), t ∈ l →
      dateLe t.date (l.foldl (fun x u => dMax x u.date) a) := by
  intro l
  induction l with
  | nil => intro a t ht; simp at ht
  | cons u w ih =>
    intro a t ht
    rcases List.mem_cons.mp ht with rfl | ht
    · exact dateLe_trans (le_dMax_right a t.date) (maxFold_ge_init w (dMax a t.date))
    · exact ih (dMax a u.date) t ht

/-- For dates with valid months, date order implies month-index order. -/
theorem mIdx_le_of_dateLe {a b : Date}
    (ha : 1 ≤ a.month ∧ a.month ≤ 12) (hb : 1 ≤ b.month ∧ b.month ≤ 12)
    (h : dateLe a b) : a.mIdx ≤ b.mIdx := by
  unfold dateLe at h
  unfold Date.mIdx
  omega

/-- For a date with a valid month, the key of its month index is its
`(year, month)` pair. -/
theorem idxToKey_mIdx {d : Date} (h : 1 ≤ d.month ∧ d.month ≤ 12) :
    idxToKey d.mIdx = (d.year, d.month) := by
  unfold idxToKey Date.mIdx
  have h1 : (12 * d.year + (d.month - 1)) / 12 = d.year := by omega
  have h2 : (12 * d.year + (d.month - 1)) % 12 + 1 = d.month := by omega
  rw [h1, h2]

/-- Stepping the month index by one is the source's month increment with
December rollover. -/
theorem idxToKey_succ (k : Nat) : idxToKey (k + 1) = nextMonth (idxToKey k) := by
  unfold idxToKey nextMonth
  by_cases h : k % 12 = 11
  · have hb : (k % 12 + 1 == 12) = true := by simp [h]
    simp only [hb, if_true]
    have h1 : (k + 1) / 12 = k / 12 + 1 := by omega
    have h2 : (k + 1) % 12 + 1 = 1 := by omega
    rw [h1, h2]
  · have hb : (k % 12 + 1 == 12) = false := by
      simp only [beq_eq_false_iff_ne, ne_eq]
      omega
    simp only [hb, if_false]
    have h1 : (k + 1) / 12 = k / 12 := by omega
    have h2 : (k + 1) % 12 + 1 = k % 12 + 1 + 1 := by omega
    rw [h1, h2]
    simp

/-- Entry `i` of the mapped month-index interval. -/
theorem mapped_range'_getD (a n i : Nat) (h : i < n) :
    ((List.range' a n).map idxToKey).getD i (0, 0) = idxToKey (a + i) := by
  have hl : i < ((List.range' a n).map idxToKey).length := by simpa using h
  rw [List.getD_eq_getElem _ _ hl, List.getElem_map, List.getElem_range']
  rw [Nat.one_mul]

/-- Claim C4: for a non-empty transaction set with valid dates,
`get_monthly_periods` is non-empty, starts at the month of the earliest
transaction date, ends at the month of the latest, and each step advances
by exactly one calendar month; the endpoints of `get_date_range` are
indeed the minimum and maximum transaction dates. -/
theorem monthly_periods_contiguous
    (now : Date) (txns : List Transaction)
    (hne : txns ≠ [])
    (hval : ∀ t ∈ txns, 1 ≤ t.date.month ∧ t.date.month ≤ 12 ∧ 1 ≤ t.date.day) :
    ((get_date_range now txns).1 ∈ txns.map (fun t => t.date) ∧
      (∀ t ∈ txns, dateLe (get_date_range now txns).1 t.date)) ∧
    ((get_date_range now txns).2 ∈ txns.map (fun t => t.date) ∧
      (∀ t ∈ txns, dateLe t.date (get_date_range now txns).2)) ∧
    get_monthly_periods now txns ≠ [] ∧
    (get_monthly_periods now txns).getD 0 (0, 0) =
      ((get_date_range now txns).1.year, (get_date_range now txns).1.month) ∧
    (get_monthly_periods now txns).getD ((get_monthly_periods now txns).length - 1) (0, 0) =
      ((get_date_range now txns).2.year, (get_date_range now txns).2.month) ∧
    (∀ i, i + 1 < (get_monthly_periods now txns).length →
      (get_monthly_periods now txns).getD (i + 1) (0, 0) =
        nextMonth ((get_monthly_periods now txns).getD i (0, 0))) := by
  cases txns with
  | nil => exact absurd rfl hne
  | cons t rest =>
    have hgdr : get_date_range now (t :: rest) =
        (rest.foldl (fun x u => dMin x u.date) t.date,
         rest.foldl (fun x u => dMax x u.date) t.date) := by
      unfold get_date_range
      exact foldl_minmax_split rest t.date t.date
    have hsmem : (get_date_range now (t :: rest)).1 ∈ (t :: rest).map (fun u => u.date) := by
      rw [hgdr]
      rcases minFold_eq_or_mem rest t.date with h | ⟨w, hw, hweq⟩
      · rw [h]; exact List.mem_map.mpr ⟨t, List.mem_cons_self t rest, rfl⟩
      · rw [hweq]; exact List.mem_map.mpr ⟨w, List.mem_cons_of_mem t hw, rfl⟩
    have hsle : ∀ u ∈ t :: rest, dateLe (get_date_range now (t :: rest)).1 u.date := by
      rw [hgdr]
      intro u hu
      rcases List.mem_cons.mp hu with rfl | hu
      · exact minFold_le_init rest u.date
      · exact minFold_le_mem rest t.date u hu
    have hemem : (get_date_range now (t :: rest)).2 ∈ (t :: rest).map (fun u => u.date) := by
      rw [hgdr]
      rcases maxFold_eq_or_mem rest t.date with h | ⟨w, hw, hweq⟩
      · rw [h]; exact List.mem_map.mpr ⟨t, List.mem_cons_self t rest, rfl⟩
      · rw [hweq]; exact List.mem_map.mpr ⟨w, List.mem_cons_of_mem t hw, rfl⟩
    have hele : ∀ u ∈ t :: rest, dateLe u.date (get_date_range now (t :: rest)).2 := by
      rw [hgdr]
      intro u hu
      rcases List.mem_cons.mp hu with rfl | hu
      · exact maxFold_ge_init rest u.date
      · exact maxFold_ge_mem rest t.date u hu
    have hvs : 1 ≤ (get_date_range now (t :: rest)).1.month ∧
        (get_date_range now (t :: rest)).1.month ≤ 12 := by
      rcases List.mem_map.mp hsmem with ⟨u, hu, hueq⟩
      have := hval u hu
      rw [← hueq]
      exact ⟨this.1, this.2.1⟩
    have hve : 1 ≤ (get_date_range now (t :: rest)).2.month ∧
        (get_date_range now (t :: rest)).2.month ≤ 12 := by
      rcases List.mem_map.mp hemem with ⟨u, hu, hueq⟩
      have := hval u hu
      rw [← hueq]
      exact ⟨this.1, this.2.1⟩
    have hse : dateLe (get_date_range now (t :: rest)).1 (get_date_range now (t :: rest)).2 := by
      rw [hgdr]
      exact dateLe_trans (minFold_le_init rest t.date) (maxFold_ge_init rest t.date)
    have hidx : (get_date_range now (t :: rest)).1.mIdx ≤
        (get_date_range now (t :: rest)).2.mIdx := mIdx_le_of_dateLe hvs hve hse
    have hperiods : get_monthly_periods now (t :: rest) =
        (List.range' (get_date_range now (t :: rest)).1.mIdx
          ((get_date_range now (t :: rest)).2.mIdx + 1 -
            (get_date_range now (t :: rest)).1.mIdx)).map idxToKey := by
      unfold get_monthly_periods
      simp only [periodLoop_eq_range']
    have hlen : (get_monthly_periods now (t :: rest)).length =
        (get_date_range now (t :: rest)).2.mIdx + 1 -
          (get_date_range now (t :: rest)).1.mIdx := by
      rw [hperiods]; simp
    refine ⟨⟨hsmem, hsle⟩, ⟨hemem, hele⟩, ?_, ?_, ?_, ?_⟩
    · apply List.ne_nil_of_length_pos
      rw [hlen]
      omega
    · rw [hperiods, mapped_range'_getD _ _ _ (by omega), Nat.add_zero, idxToKey_mIdx hvs]
    · rw [hlen, hperiods, mapped_range'_getD _ _ _ (by omega)]
      have harith : (get_date_range now (t :: rest)).1.mIdx +
          ((get_date_range now (t :: rest)).2.mIdx + 1 -
            (get_date_range now (t :: rest)).1.mIdx - 1) =
          (get_date_range now (t :: rest)).2.mIdx := by omega
      rw [harith, idxToKey_mIdx hve]
    · intro i hi
      rw [hlen] at hi
      rw [hperiods, mapped_range'_getD _ _ _ (by omega), mapped_range'_getD _ _ _ (by omega)]
      have harith : (get_date_range now (t :: rest)).1.mIdx + (i + 1) =
          ((get_date_range now (t :: rest)).1.mIdx + i) + 1 := by omega
      rw [harith, idxToKey_succ]

/-- Witness for claim C4: the two-transaction scenario (2024-01-15 and
2024-02-10) yields the non-empty contiguous period list `[(2024, 1),
(2024, 2)]`, starting and ending at the min/max months. -/
theorem monthly_periods_contiguous_witness :
    get_monthly_periods exNow exTxns ≠ [] ∧
    (get_monthly_periods exNow exTxns).getD 0 (0, 0) =
      ((get_date_range exNow exTxns).1.year, (get_date_range exNow exTxns).1.month) ∧
    (get_monthly_periods exNow exTxns).getD
        ((get_monthly_periods exNow exTxns).length - 1) (0, 0) =
      ((get_date_range exNow exTxns).2.year, (get_date_range exNow exTxns).2.month) ∧
    get_monthly_periods exNow exTxns = [(2024, 1), (2024, 2)] := by
  have h := monthly_periods_contiguous exNow exTxns (by decide) (by decide)
  exact ⟨h.2.2.1, h.2.2.2.1, h.2.2.2.2.1, by decide⟩
